import Mathlib

/-!
Shallow embedding of the screenshot-to-PDF pipeline of the repository
(backend/services/screenshotService.js, backend/server.js, the validation
middleware, and the standalone single-file server variants), together with
theorems settling the frozen claims about it.

Conventions used throughout:
* JavaScript numbers that hold pixel counts and scroll positions are modelled
  as `Int` (all reachable values are integral; `Int` keeps the sign behaviour
  of the source, which matters for `viewportHeight - overlap`).
* Raster images are modelled as lists of rows (`List α` for an abstract row
  type `α`); an image's pixel height is the list length.
* JavaScript string primitives `startsWith`, `includes` and `toLowerCase`
  are modelled on the character lists of Lean `String`s.
* Fallible operations (`sharp.extract`, `page.screenshot`) return `Option`;
  `none` is a thrown error.
-/

/-! ## Capture planner (screenshotService.js, captureScrollingScreenshots)

The source loop is

    const overlap = 50;
    const scrollStep = viewportHeight - overlap;
    let currentScroll = 0;
    while (currentScroll < pageHeight) {
      ... page.screenshot({ clip: { height: Math.min(viewportHeight, pageHeight - currentScroll) } })
      currentScroll += scrollStep;
    }

`scrollOffsetsAux` is that loop's trace of scroll offsets, written with
explicit fuel (the loop has no bound of its own; the fuel chosen in
`captureScrollOffsets` is provably enough whenever the step is positive, and
`scrollLoopExits` below tracks whether the loop's exit test ever succeeds).
The source fixes `overlap = 50` at line 257; the definitions keep it as a
parameter so that the quantified claims can be stated, and instantiating
`overlapPx = 50` recovers the source exactly. -/
def scrollOffsetsAux (pageHeight step : Int) : Nat → Int → List Int
  | 0, _ => []
  | fuel + 1, currentScroll =>
    if currentScroll < pageHeight then
      currentScroll :: scrollOffsetsAux pageHeight step fuel (currentScroll + step)
    else []

/-- The sequence of scroll offsets at which `captureScrollingScreenshots`
takes a screenshot.  The fuel `pageHeight / step + 1` dominates the loop's
iteration count whenever `step > 0`. -/
def captureScrollOffsets (pageHeight viewportHeight overlapPx : Int) : List Int :=
  scrollOffsetsAux pageHeight (viewportHeight - overlapPx)
    ((pageHeight / (viewportHeight - overlapPx)).toNat + 1) 0

/-- The clip height of the screenshot taken at `offset`:
`Math.min(viewportHeight, pageHeight - currentScroll)` in the source. -/
def clipHeight (pageHeight viewportHeight offset : Int) : Int :=
  min viewportHeight (pageHeight - offset)

/-- Whether the `while (currentScroll < pageHeight)` loop's exit test succeeds
within `fuel` iterations when started at `currentScroll`. -/
def scrollLoopExits (pageHeight step : Int) : Nat → Int → Bool
  | 0, currentScroll => decide (pageHeight ≤ currentScroll)
  | fuel + 1, currentScroll =>
    if currentScroll < pageHeight then
      scrollLoopExits pageHeight step fuel (currentScroll + step)
    else true

/-- Viewport lookup of `ScreenshotService.getViewportSettings`:
`{low: 1024x768, medium: 1280x1024, high: 1920x1080}`, defaulting to medium. -/
structure Viewport where
  width : Int
  height : Int
deriving DecidableEq

def getViewportSettings (quality : String) : Viewport :=
  if quality = "low" then ⟨1024, 768⟩
  else if quality = "medium" then ⟨1280, 1024⟩
  else if quality = "high" then ⟨1920, 1080⟩
  else ⟨1280, 1024⟩

/-! ## The capture loop with a fallible screenshot operation

Same loop as `scrollOffsetsAux`, with `page.screenshot` abstracted as
`shoot : Int → Option α` (the screenshot at a given scroll offset, `none` if
it throws).  The source has no try/catch inside the loop, so a `none`
propagates out of the whole call. -/
def captureSegmentsAux (shoot : Int → Option α) (pageHeight step : Int) :
    Nat → Int → Option (List α)
  | 0, _ => some []
  | fuel + 1, currentScroll =>
    if currentScroll < pageHeight then
      match shoot currentScroll with
      | none => none
      | some img =>
        (captureSegmentsAux shoot pageHeight step fuel (currentScroll + step)).map
          (fun rest => img :: rest)
    else some []

def captureSegments (shoot : Int → Option α) (pageHeight viewportHeight overlapPx : Int) :
    Option (List α) :=
  captureSegmentsAux shoot pageHeight (viewportHeight - overlapPx)
    ((pageHeight / (viewportHeight - overlapPx)).toNat + 1) 0

/-! ## Seam merger (screenshotService.js, mergeScreenshots)

`sharp(...).extract({left: 0, top: overlap, width, height: h - overlap})`
removes the top `overlap` rows; sharp throws when the requested height
`h - overlap` is not positive.  `mergeScreenshots` keeps index 0 whole and
crops every later screenshot when `overlap > 0`, returning the input
unchanged when there is at most one screenshot. -/
def cropTop (overlap : Int) (img : List α) : Option (List α) :=
  if 0 < (img.length : Int) - overlap then some (img.drop overlap.toNat) else none

def mergeAux (overlap : Int) : Nat → List (List α) → Option (List (List α))
  | _, [] => some []
  | i, s :: rest =>
    match (if 0 < i ∧ 0 < overlap then cropTop overlap s else some s),
        mergeAux overlap (i + 1) rest with
    | some a, some b => some (a :: b)
    | _, _ => none

def mergeScreenshots (screenshots : List (List α)) (overlap : Int) :
    Option (List (List α)) :=
  if screenshots.length ≤ 1 then some screenshots
  else mergeAux overlap 0 screenshots

/-- Slicing a known tall image at a planner offset: the segment spans
`[offset, offset + clipHeight)` of the original rows. -/
def sliceSegment (original : List α) (pageHeight viewportHeight offset : Int) : List α :=
  (original.drop offset.toNat).take (clipHeight pageHeight viewportHeight offset).toNat

/-- The synthetic segments obtained by slicing `original` at the planner's
offsets for its own height. -/
def planSlices (original : List α) (viewportHeight overlapPx : Int) : List (List α) :=
  (captureScrollOffsets (original.length : Int) viewportHeight overlapPx).map
    (fun o => sliceSegment original (original.length : Int) viewportHeight o)

/-! ## JavaScript string primitive models -/

/-- JS `String.prototype.startsWith`, on the character list. -/
def strStartsWith (s prefixStr : String) : Bool :=
  prefixStr.toList.isPrefixOf s.toList

/-- Whether `sub` occurs as a contiguous run inside `l`. -/
def charsContain (l sub : List Char) : Bool :=
  match l with
  | [] => sub.isEmpty
  | _ :: rest => sub.isPrefixOf l || charsContain rest sub

/-- JS `String.prototype.includes`, on the character list. -/
def strContains (s sub : String) : Bool :=
  charsContain s.toList sub.toList

/-- JS `String.prototype.toLowerCase` (ASCII range, which covers hostnames). -/
def strToLower (s : String) : String :=
  ⟨s.toList.map Char.toLower⟩

/-! ## Link collection (single-file server variant, /api/screenshot-pdf)

    const baseUrl = new URL(url).origin;
    const foundLinks = await page.evaluate(... anchors.map(a => a.href)
        .filter(href => href && href.startsWith(baseUrl) && href !== window.location.href)
        .slice(0, maxCount) ...);
    links = [url, ...foundLinks];

`baseUrl` (the origin string computed by `new URL(url).origin`) and the
page's `window.location.href` are passed in as inputs; `anchors` is the list
of anchor `href`s found in the DOM. -/
def collectLinks (url baseUrl locationHref : String) (anchors : List String)
    (maxLinks : Nat) : List String :=
  url :: (anchors.filter
    (fun href => !(href == "") && strStartsWith href baseUrl && !(href == locationHref))).take maxLinks

/-- The per-link screenshot loop of the same variant: each link's screenshot
is attempted, a failure is skipped (`catch { continue }`), and after the loop
`if (screenshotPaths.length === 0) throw new Error(...)`. -/
def processLinkScreenshots (shoot : σ → Option α) (links : List σ) :
    Except String (List α) :=
  let screenshotPaths := links.filterMap shoot
  if screenshotPaths.length = 0 then
    Except.error "No screenshots were captured successfully"
  else Except.ok screenshotPaths

/-! ## URL validation middleware (middleware/validation.js)

`urlValidation` checks `isURL({protocols: [http, https], ...})` (modelled by
the `wellFormedHttpUrl` flag, since `isURL`'s internals live in the
`express-validator` dependency, not in this repository), then a custom check
on `url.hostname.toLowerCase()`:

    hostname === 'localhost' || hostname.startsWith('127.') ||
    hostname.startsWith('192.168.') || hostname.startsWith('10.') ||
    hostname.match(/^172\.(1[6-9]|2[0-9]|3[0-1])\./)

and then the shortened-URL check

    ['bit.ly', 'tinyurl.com', 'short.link'].some(d => hostname.includes(d)).

Any failure makes `handleValidationErrors` answer HTTP 400 with code
`VALIDATION_ERROR` before the route handler (and hence any navigation)
runs. -/
structure UrlCheck where
  wellFormedHttpUrl : Bool
  hostname : String

def prefixes172 : List String :=
  ["172.16.", "172.17.", "172.18.", "172.19.", "172.20.", "172.21.", "172.22.",
   "172.23.", "172.24.", "172.25.", "172.26.", "172.27.", "172.28.", "172.29.",
   "172.30.", "172.31."]

def matches172 (hostname : String) : Bool :=
  prefixes172.any (fun p => strStartsWith hostname p)

def blockedPrivateHost (hostname : String) : Bool :=
  (hostname == "localhost") || strStartsWith hostname "127." ||
    strStartsWith hostname "192.168." || strStartsWith hostname "10." ||
    matches172 hostname

def suspiciousDomains : List String := ["bit.ly", "tinyurl.com", "short.link"]

def suspiciousHost (hostname : String) : Bool :=
  suspiciousDomains.any (fun d => strContains hostname d)

def urlValidationPasses (u : UrlCheck) : Bool :=
  u.wellFormedHttpUrl &&
    (!(blockedPrivateHost (strToLower u.hostname)) &&
      !(suspiciousHost (strToLower u.hostname)))

inductive GateResult where
  | rejected (code : String) (status : Nat)
  | proceeded
deriving DecidableEq

/-- The `/api/screenshot-pdf` middleware chain: requests failing
`urlValidation` are answered by `handleValidationErrors` with 400 /
`VALIDATION_ERROR`; only passing requests reach the route handler (where
navigation happens). -/
def screenshotPdfGate (u : UrlCheck) : GateResult :=
  if urlValidationPasses u then GateResult.proceeded
  else GateResult.rejected "VALIDATION_ERROR" 400

/-- Following the spec's words (§3 invariant): a host that is a loopback,
private, or link-local address.  This is the spec-side definition used to
compare the validation middleware against the claimed security boundary. -/
def specDisallowedHost (hostname : String) : Bool :=
  (hostname == "localhost") || strStartsWith hostname "127." ||
    strStartsWith hostname "10." || strStartsWith hostname "192.168." ||
    matches172 hostname || strStartsWith hostname "169.254." || (hostname == "::1")

/-! ## Error classification and temp-directory lifecycle (server.js)

The catch handler of `/api/screenshot-pdf` cleans up the request's temp
directory and then classifies `error.message` by substring:
timeout → 408 TIMEOUT_ERROR, navigation → 400 WEBSITE_LOAD_ERROR,
DNS/ENOTFOUND → 400 DNS_ERROR, otherwise 500 INTERNAL_ERROR. -/
def classifyCaptureError (msg : String) : String × Nat :=
  if strContains msg "timeout" then ("TIMEOUT_ERROR", 408)
  else if strContains msg "navigation" then ("WEBSITE_LOAD_ERROR", 400)
  else if strContains msg "DNS" || strContains msg "ENOTFOUND" then ("DNS_ERROR", 400)
  else ("INTERNAL_ERROR", 500)

/-- One run of the `/api/screenshot-pdf` handler, abstracted over the capture
outcome.  `tempDirs` is the set of existing temp directories (as tokens),
`fresh` the token `createTempDirectory` returns for this request.  On a
capture error the handler runs `fileManager.cleanupDirectory(tempDir)`
(modelled as removal) and then sends the classified error response; on
success the PDF is streamed and cleanup is deferred until after the
response.  Result: the error response sent (if any) and the temp directories
existing when the response goes out. -/
def runScreenshotPdf (tempDirs : List Nat) (fresh : Nat)
    (capture : Except String (List Int)) : Option (String × Nat) × List Nat :=
  let dirs := fresh :: tempDirs
  match capture with
  | Except.ok _ => (none, dirs)
  | Except.error msg => (some (classifyCaptureError msg), dirs.erase fresh)

/-! ## PDF page sizing (single-file server variant)

    let pdfWidth = maxWidth; let pdfHeight = totalHeight;
    const maxSize = 14400;
    if (pdfWidth > maxSize || pdfHeight > maxSize) {
      const scale = Math.min(maxSize / pdfWidth, maxSize / pdfHeight);
      pdfWidth *= scale; pdfHeight *= scale;
    }

Arithmetic is modelled exactly over `ℚ`. -/
def pdfMaxSize : ℚ := 14400

def pdfPageDims (w h : ℚ) : ℚ × ℚ :=
  if pdfMaxSize < w ∨ pdfMaxSize < h then
    (w * min (pdfMaxSize / w) (pdfMaxSize / h), h * min (pdfMaxSize / w) (pdfMaxSize / h))
  else (w, h)

/-! ## Theorems -/

/-- **C2.** For `pageHeight = 3600`, `viewportHeight = 1200`,
`overlapPx = 50`, the planner emits exactly the offsets
`[0, 1150, 2300, 3450]`, and the clipped height of the last segment is
`min 1200 (3600 - 3450) = 150`. -/
theorem scenario_a_offsets :
    captureScrollOffsets 3600 1200 50 = [0, 1150, 2300, 3450] ∧
      clipHeight 3600 1200 3450 = 150 := by
  constructor <;> decide

/-- **C10.** Any request whose (lowercased) hostname contains `bit.ly`,
`tinyurl.com`, or `short.link` is rejected by the validation middleware with
`VALIDATION_ERROR` before the route handler (and hence any navigation)
runs. -/
theorem shortener_blocking (u : UrlCheck)
    (h : strContains (strToLower u.hostname) "bit.ly" = true ∨
         strContains (strToLower u.hostname) "tinyurl.com" = true ∨
         strContains (strToLower u.hostname) "short.link" = true) :
    screenshotPdfGate u = GateResult.rejected "VALIDATION_ERROR" 400 := by
  have hs : suspiciousHost (strToLower u.hostname) = true := by
    unfold suspiciousHost suspiciousDomains
    simp only [List.any_cons, List.any_nil, Bool.or_eq_true, Bool.false_eq_true, or_false]
    tauto
  simp [screenshotPdfGate, urlValidationPasses, hs]

theorem shortener_blocking_witness :
    (strContains (strToLower (UrlCheck.mk true "bit.ly").hostname) "bit.ly" = true ∨
     strContains (strToLower (UrlCheck.mk true "bit.ly").hostname) "tinyurl.com" = true ∨
     strContains (strToLower (UrlCheck.mk true "bit.ly").hostname) "short.link" = true) ∧
    screenshotPdfGate (UrlCheck.mk true "bit.ly") =
      GateResult.rejected "VALIDATION_ERROR" 400 :=
  ⟨Or.inl (by decide), shortener_blocking (UrlCheck.mk true "bit.ly") (Or.inl (by decide))⟩

/-- **C6 (counterexample).** A well-formed request for the link-local address
`http://169.254.7.9/` is a link-local host in the spec's sense, yet the
validation middleware lets it proceed to navigation: the claim that every
loopback, private, or link-local host is rejected is false on the code. -/
theorem validation_boundary_counterexample :
    specDisallowedHost "169.254.7.9" = true ∧
      screenshotPdfGate (UrlCheck.mk true "169.254.7.9") = GateResult.proceeded := by
  constructor <;> decide

/-- **C6 (amended).** Every request whose URL is not a well-formed absolute
HTTP/HTTPS URL, or whose lowercased hostname is `localhost` or starts with
`127.`, `192.168.`, `10.`, or `172.16.`–`172.31.`, is rejected with
`VALIDATION_ERROR` (HTTP 400) before any navigation occurs.  (Link-local
`169.254.0.0/16` hosts are not in the blocked set, per the
counterexample.) -/
theorem validation_boundary_amended (u : UrlCheck)
    (h : u.wellFormedHttpUrl = false ∨
         blockedPrivateHost (strToLower u.hostname) = true) :
    screenshotPdfGate u = GateResult.rejected "VALIDATION_ERROR" 400 := by
  rcases h with h | h <;> simp [screenshotPdfGate, urlValidationPasses, h]

theorem validation_boundary_amended_witness :
    ((UrlCheck.mk true "localhost").wellFormedHttpUrl = false ∨
      blockedPrivateHost (strToLower (UrlCheck.mk true "localhost").hostname) = true) ∧
    screenshotPdfGate (UrlCheck.mk true "localhost") =
      GateResult.rejected "VALIDATION_ERROR" 400 :=
  ⟨Or.inr (by decide),
    validation_boundary_amended (UrlCheck.mk true "localhost") (Or.inr (by decide))⟩

/-- **C9.** When the capture fails with a DNS-resolution error (message
carrying `DNS` or `ENOTFOUND`, and not a timeout/navigation message, which
the catch handler tests first), the `/api/screenshot-pdf` handler answers
with code `DNS_ERROR` and HTTP client-error status 400, and the temp
directory created for the request no longer exists when the response is
sent. -/
theorem dns_error_cleanup (tempDirs : List Nat) (fresh : Nat) (msg : String)
    (hfresh : fresh ∉ tempDirs)
    (hdns : strContains msg "DNS" = true ∨ strContains msg "ENOTFOUND" = true)
    (htimeout : strContains msg "timeout" = false)
    (hnav : strContains msg "navigation" = false) :
    (runScreenshotPdf tempDirs fresh (Except.error msg)).1 = some ("DNS_ERROR", 400) ∧
      fresh ∉ (runScreenshotPdf tempDirs fresh (Except.error msg)).2 := by
  have hclass : classifyCaptureError msg = ("DNS_ERROR", 400) := by
    unfold classifyCaptureError
    rcases hdns with h | h <;> simp [htimeout, hnav, h]
  refine ⟨by simp [runScreenshotPdf, hclass], ?_⟩
  show fresh ∉ (fresh :: tempDirs).erase fresh
  rw [List.erase_cons_head]
  exact hfresh

theorem dns_error_cleanup_witness :
    (3 ∉ ([7] : List Nat)) ∧
    (strContains "getaddrinfo ENOTFOUND example.invalid" "DNS" = true ∨
      strContains "getaddrinfo ENOTFOUND example.invalid" "ENOTFOUND" = true) ∧
    strContains "getaddrinfo ENOTFOUND example.invalid" "timeout" = false ∧
    strContains "getaddrinfo ENOTFOUND example.invalid" "navigation" = false ∧
    ((runScreenshotPdf [7] 3
        (Except.error "getaddrinfo ENOTFOUND example.invalid")).1 =
          some ("DNS_ERROR", 400) ∧
      3 ∉ (runScreenshotPdf [7] 3
        (Except.error "getaddrinfo ENOTFOUND example.invalid")).2) :=
  ⟨by decide, Or.inr (by decide), by decide, by decide,
    dns_error_cleanup [7] 3 "getaddrinfo ENOTFOUND example.invalid"
      (by decide) (Or.inr (by decide)) (by decide) (by decide)⟩

/-- **C8.** The combined composite page sizing: both result axes are within
the 14400-unit bound, the aspect ratio is preserved exactly (hence within the
claimed 1% tolerance) — stated as cross-multiplied equality and as equality
of the ratios — and whenever an axis exceeds the bound both axes are
multiplied by the same factor `min (14400/w) (14400/h)`.  Arithmetic is
modelled exactly over `ℚ`. -/
theorem bounded_composite_size (w h : ℚ) (hw : 0 < w) (hh : 0 < h) :
    (pdfPageDims w h).1 ≤ pdfMaxSize ∧ (pdfPageDims w h).2 ≤ pdfMaxSize ∧
      (pdfPageDims w h).1 * h = (pdfPageDims w h).2 * w ∧
      (pdfPageDims w h).1 / (pdfPageDims w h).2 = w / h ∧
      ((pdfMaxSize < w ∨ pdfMaxSize < h) →
        pdfPageDims w h =
          (w * min (pdfMaxSize / w) (pdfMaxSize / h),
            h * min (pdfMaxSize / w) (pdfMaxSize / h))) := by
  have hw' : w ≠ 0 := ne_of_gt hw
  have hh' : h ≠ 0 := ne_of_gt hh
  have hmax : (0 : ℚ) < pdfMaxSize := by norm_num [pdfMaxSize]
  unfold pdfPageDims
  split
  case isTrue hex =>
    have hs0 : 0 < min (pdfMaxSize / w) (pdfMaxSize / h) :=
      lt_min (div_pos hmax hw) (div_pos hmax hh)
    refine ⟨?_, ?_, by ring, ?_, fun _ => rfl⟩
    · calc w * min (pdfMaxSize / w) (pdfMaxSize / h) ≤ w * (pdfMaxSize / w) :=
            mul_le_mul_of_nonneg_left (min_le_left _ _) (le_of_lt hw)
        _ = pdfMaxSize := by rw [mul_comm, div_mul_cancel₀ _ hw']
    · calc h * min (pdfMaxSize / w) (pdfMaxSize / h) ≤ h * (pdfMaxSize / h) :=
            mul_le_mul_of_nonneg_left (min_le_right _ _) (le_of_lt hh)
        _ = pdfMaxSize := by rw [mul_comm, div_mul_cancel₀ _ hh']
    · rw [mul_comm w _, mul_comm h _,
        mul_div_mul_left _ _ (ne_of_gt hs0)]
  case isFalse hex =>
    have hb : w ≤ pdfMaxSize ∧ h ≤ pdfMaxSize := by
      have hex' := hex
      push_neg at hex'
      exact hex'
    exact ⟨hb.1, hb.2, by ring, rfl, fun hc => absurd hc hex⟩

theorem bounded_composite_size_witness :
    (0 : ℚ) < 20000 ∧ (0 : ℚ) < 9000 ∧
      ((pdfPageDims 20000 9000).1 ≤ pdfMaxSize ∧
        (pdfPageDims 20000 9000).2 ≤ pdfMaxSize ∧
        (pdfPageDims 20000 9000).1 * 9000 = (pdfPageDims 20000 9000).2 * 20000 ∧
        (pdfPageDims 20000 9000).1 / (pdfPageDims 20000 9000).2 = 20000 / 9000 ∧
        ((pdfMaxSize < 20000 ∨ pdfMaxSize < 9000) →
          pdfPageDims 20000 9000 =
            (20000 * min (pdfMaxSize / 20000) (pdfMaxSize / 9000),
              9000 * min (pdfMaxSize / 20000) (pdfMaxSize / 9000)))) :=
  ⟨by norm_num, by norm_num,
    bounded_composite_size 20000 9000 (by norm_num) (by norm_num)⟩

/-- The scroll loop never exits when the step is not positive and the page
has positive height: the scroll position never reaches `pageHeight`. -/
theorem scrollLoopExits_nonpos_step (pageHeight step : Int)
    (hpH : 0 < pageHeight) (hstep : step ≤ 0) :
    ∀ (fuel : Nat) (cur : Int), cur ≤ 0 →
      scrollLoopExits pageHeight step fuel cur = false := by
  intro fuel
  induction fuel with
  | zero =>
    intro cur hcur
    simp only [scrollLoopExits, decide_eq_false_iff_not]
    omega
  | succ fuel ih =>
    intro cur hcur
    have hlt : cur < pageHeight := by omega
    simp only [scrollLoopExits, if_pos hlt]
    exact ih (cur + step) (by omega)

/-- **C7.** The capture planner performs no validation of
`overlapPx ≥ viewportHeight`: the loop `while (currentScroll < pageHeight)`
with step `viewportHeight - overlap ≤ 0` never exits (no `ConfigurationError`
is ever raised — none exists in the code); the service itself can only reach
the loop with viewport heights 768/1024/1080, all above the hardcoded
overlap 50. -/
theorem overlap_unchecked_loop (pageHeight viewportHeight overlapPx : Int) (fuel : Nat)
    (hpH : 0 < pageHeight) (hov : viewportHeight ≤ overlapPx) :
    scrollLoopExits pageHeight (viewportHeight - overlapPx) fuel 0 = false ∧
      ∀ q : String, 50 < (getViewportSettings q).height := by
  refine ⟨scrollLoopExits_nonpos_step _ _ hpH (by omega) fuel 0 le_rfl, ?_⟩
  intro q
  unfold getViewportSettings
  split_ifs <;> decide

theorem overlap_unchecked_loop_witness :
    (0 : Int) < 100 ∧ (40 : Int) ≤ 50 ∧
      (scrollLoopExits 100 ((40 : Int) - 50) 1000 0 = false ∧
        ∀ q : String, 50 < (getViewportSettings q).height) :=
  ⟨by decide, by decide, overlap_unchecked_loop 100 40 50 1000 (by decide) (by decide)⟩

/-- **C5 (counterexample).** The link collector does not deduplicate: with
two identical same-origin anchors the returned list contains the link twice,
so the claimed no-duplicates contract is false on the code. -/
theorem link_discovery_counterexample :
    collectLinks "https://a.com/" "https://a.com" "https://a.com/"
        ["https://a.com/x", "https://a.com/x"] 3 =
      ["https://a.com/", "https://a.com/x", "https://a.com/x"] ∧
      ¬ (collectLinks "https://a.com/" "https://a.com" "https://a.com/"
        ["https://a.com/x", "https://a.com/x"] 3).Nodup := by
  constructor <;> decide

/-- **C5 (amended).** The link collector returns the requested URL first;
the remaining entries are an order-preserving sublist of the page's anchor
hrefs, each nonempty, matching the origin by string prefix (not by exact
origin comparison), and different from the page's current location href; and
there are at most `maxLinks` of them.  Duplicates are not removed. -/
theorem link_discovery_amended (url baseUrl locationHref : String)
    (anchors : List String) (maxLinks : Nat) :
    (collectLinks url baseUrl locationHref anchors maxLinks).head? = some url ∧
      (∀ l ∈ (collectLinks url baseUrl locationHref anchors maxLinks).tail,
        l ≠ "" ∧ strStartsWith l baseUrl = true ∧ l ≠ locationHref) ∧
      (collectLinks url baseUrl locationHref anchors maxLinks).tail.length ≤ maxLinks ∧
      (collectLinks url baseUrl locationHref anchors maxLinks).tail.Sublist anchors := by
  refine ⟨rfl, ?_, ?_, ?_⟩
  · intro l hl
    simp only [collectLinks, List.tail_cons] at hl
    have hmem := (List.mem_filter.mp (List.mem_of_mem_take hl)).2
    simp only [Bool.and_eq_true, Bool.not_eq_true', beq_eq_false_iff_ne] at hmem
    exact ⟨hmem.1.1, hmem.1.2, hmem.2⟩
  · simp only [collectLinks, List.tail_cons]
    exact List.length_take_le _ _
  · simp only [collectLinks, List.tail_cons]
    exact (List.take_sublist _ _).trans (List.filter_sublist _)

/-! ## Planner lemmas -/

/-- Peeling one loop iteration off a fuel budget. -/
theorem fuel_step_peel (fuel : Nat) (step A : Int)
    (h : A ≤ ((fuel + 1 : Nat) : Int) * step) : A - step ≤ (fuel : Int) * step := by
  have hcast : ((fuel + 1 : Nat) : Int) * step = (fuel : Int) * step + step := by
    push_cast; ring
  rw [hcast] at h
  linarith

/-- The fuel chosen in `captureScrollOffsets` covers the whole page whenever
the step is positive. -/
theorem fuel_sufficient (pageHeight step : Int) (hpH : 0 ≤ pageHeight)
    (hstep : 0 < step) :
    pageHeight - 0 ≤ (((pageHeight / step).toNat + 1 : Nat) : Int) * step := by
  have hdiv : 0 ≤ pageHeight / step := Int.ediv_nonneg hpH (le_of_lt hstep)
  have ht : ((pageHeight / step).toNat : Int) = pageHeight / step :=
    Int.toNat_of_nonneg hdiv
  have hmod := Int.emod_lt_of_pos pageHeight hstep
  have hdm := Int.ediv_add_emod pageHeight step
  have hc : (((pageHeight / step).toNat + 1 : Nat) : Int) = pageHeight / step + 1 := by
    push_cast
    rw [ht]
  rw [hc]
  have hexp : (pageHeight / step + 1) * step = step * (pageHeight / step) + step := by ring
  rw [hexp]
  linarith

/-- The `i`-th offset emitted by the loop is `cur + i * step`. -/
theorem scrollOffsetsAux_get (pageHeight step : Int) :
    ∀ (fuel : Nat) (cur : Int) (i : Nat),
      i < (scrollOffsetsAux pageHeight step fuel cur).length →
      (scrollOffsetsAux pageHeight step fuel cur).get? i = some (cur + i * step) := by
  intro fuel
  induction fuel with
  | zero =>
    intro cur i h
    simp [scrollOffsetsAux] at h
  | succ fuel ih =>
    intro cur i h
    by_cases hc : cur < pageHeight
    · simp only [scrollOffsetsAux, if_pos hc] at h ⊢
      cases i with
      | zero => simp
      | succ j =>
        rw [List.get?_cons_succ]
        rw [ih (cur + step) j (by simpa using h)]
        congr 1
        push_cast
        ring
    · rw [scrollOffsetsAux, if_neg hc] at h
      simp at h

/-- Every emitted offset lies in `[cur, pageHeight)`. -/
theorem scrollOffsetsAux_mem (pageHeight step : Int) (hstep : 0 ≤ step) :
    ∀ (fuel : Nat) (cur o : Int), o ∈ scrollOffsetsAux pageHeight step fuel cur →
      cur ≤ o ∧ o < pageHeight := by
  intro fuel
  induction fuel with
  | zero =>
    intro cur o ho
    simp [scrollOffsetsAux] at ho
  | succ fuel ih =>
    intro cur o ho
    by_cases hc : cur < pageHeight
    · simp only [scrollOffsetsAux, if_pos hc, List.mem_cons] at ho
      rcases ho with rfl | ho
      · exact ⟨le_refl _, hc⟩
      · have hrest := ih (cur + step) o ho
        exact ⟨by omega, hrest.2⟩
    · simp [scrollOffsetsAux, if_neg hc] at ho

/-- Given enough fuel, every multiple of the step below the page bottom is
reached: the loop does not stop early. -/
theorem scrollOffsetsAux_count (pageHeight step : Int) (hstep : 0 < step) :
    ∀ (fuel : Nat) (cur : Int), pageHeight - cur ≤ (fuel : Int) * step →
      ∀ k : Nat, cur + (k : Int) * step < pageHeight →
        k < (scrollOffsetsAux pageHeight step fuel cur).length := by
  intro fuel
  induction fuel with
  | zero =>
    intro cur hfuel k hk
    exfalso
    have hk0 : 0 ≤ (k : Int) * step := by positivity
    simp only [Nat.cast_zero, zero_mul] at hfuel
    omega
  | succ fuel ih =>
    intro cur hfuel k hk
    have hk0 : 0 ≤ (k : Int) * step := by positivity
    have hc : cur < pageHeight := by omega
    simp only [scrollOffsetsAux, if_pos hc, List.length_cons]
    cases k with
    | zero => omega
    | succ j =>
      have hkexp : ((j + 1 : Nat) : Int) * step = (j : Int) * step + step := by
        push_cast; ring
      rw [hkexp] at hk
      have hj : (cur + step) + (j : Int) * step < pageHeight := by linarith
      have hfuel' : pageHeight - (cur + step) ≤ (fuel : Int) * step := by
        have := fuel_step_peel fuel step (pageHeight - cur) hfuel
        linarith
      have := ih (cur + step) hfuel' j hj
      omega

/-- Given enough fuel, every row position in `[cur, pageHeight)` is within
`step` of some emitted offset at or below it. -/
theorem scrollOffsetsAux_cover (pageHeight step : Int) (hstep : 0 < step) :
    ∀ (fuel : Nat) (cur : Int), pageHeight - cur ≤ (fuel : Int) * step →
      ∀ y : Int, cur ≤ y → y < pageHeight →
        ∃ o ∈ scrollOffsetsAux pageHeight step fuel cur, o ≤ y ∧ y < o + step := by
  intro fuel
  induction fuel with
  | zero =>
    intro cur hfuel y hy1 hy2
    exfalso
    simp only [Nat.cast_zero, zero_mul] at hfuel
    omega
  | succ fuel ih =>
    intro cur hfuel y hy1 hy2
    have hc : cur < pageHeight := lt_of_le_of_lt hy1 hy2
    simp only [scrollOffsetsAux, if_pos hc]
    by_cases hcase : y < cur + step
    · exact ⟨cur, List.mem_cons_self _ _, hy1, hcase⟩
    · push_neg at hcase
      have hfuel' : pageHeight - (cur + step) ≤ (fuel : Int) * step := by
        have := fuel_step_peel fuel step (pageHeight - cur) hfuel
        linarith
      obtain ⟨o, ho, h1, h2⟩ := ih (cur + step) hfuel' y hcase hy2
      exact ⟨o, List.mem_cons_of_mem _ ho, h1, h2⟩

/-- **C1.** Planning completeness: under `pageHeight ≥ 0`,
`viewportHeight > 0`, `0 ≤ overlapPx < viewportHeight`, the planner's
offsets are `0, step, 2·step, …` with `step = max 1 (viewportHeight -
overlapPx)`, taken exactly while `offset < pageHeight` (no offset reaches
`pageHeight`, and every multiple of the step below `pageHeight` occurs), and
the effective segments `[offset, offset + clipHeight)` cover every row of
`[0, pageHeight)` with no gap. -/
theorem planning_completeness (pageHeight viewportHeight overlapPx : Int)
    (hpH : 0 ≤ pageHeight) (hvH : 0 < viewportHeight)
    (hov0 : 0 ≤ overlapPx) (hov : overlapPx < viewportHeight) :
    (∀ i : Nat, i < (captureScrollOffsets pageHeight viewportHeight overlapPx).length →
        (captureScrollOffsets pageHeight viewportHeight overlapPx).get? i =
          some ((i : Int) * max 1 (viewportHeight - overlapPx))) ∧
      (∀ o ∈ captureScrollOffsets pageHeight viewportHeight overlapPx,
        0 ≤ o ∧ o < pageHeight) ∧
      (∀ k : Nat, (k : Int) * max 1 (viewportHeight - overlapPx) < pageHeight →
        k < (captureScrollOffsets pageHeight viewportHeight overlapPx).length) ∧
      (∀ y : Int, 0 ≤ y → y < pageHeight →
        ∃ o ∈ captureScrollOffsets pageHeight viewportHeight overlapPx,
          o ≤ y ∧ y < o + clipHeight pageHeight viewportHeight o) := by
  have hstep : 0 < viewportHeight - overlapPx := by omega
  have hmax : max 1 (viewportHeight - overlapPx) = viewportHeight - overlapPx := by
    omega
  rw [hmax]
  have hfuel := fuel_sufficient pageHeight (viewportHeight - overlapPx) hpH hstep
  unfold captureScrollOffsets
  refine ⟨?_, ?_, ?_, ?_⟩
  · intro i h
    have hg := scrollOffsetsAux_get pageHeight (viewportHeight - overlapPx) _ 0 i h
    simpa using hg
  · intro o ho
    exact ⟨(scrollOffsetsAux_mem _ _ (le_of_lt hstep) _ 0 o ho).1,
      (scrollOffsetsAux_mem _ _ (le_of_lt hstep) _ 0 o ho).2⟩
  · intro k hk
    exact scrollOffsetsAux_count pageHeight (viewportHeight - overlapPx) hstep _ 0
      hfuel k (by simpa using hk)
  · intro y hy0 hy1
    obtain ⟨o, ho, h1, h2⟩ := scrollOffsetsAux_cover pageHeight
      (viewportHeight - overlapPx) hstep _ 0 hfuel y hy0 hy1
    refine ⟨o, ho, h1, ?_⟩
    have hmem := scrollOffsetsAux_mem pageHeight (viewportHeight - overlapPx)
      (le_of_lt hstep) _ 0 o ho
    unfold clipHeight
    omega

theorem planning_completeness_witness :
    (0 : Int) ≤ 3600 ∧ (0 : Int) < 1200 ∧ (0 : Int) ≤ 50 ∧ (50 : Int) < 1200 ∧
      ((∀ i : Nat, i < (captureScrollOffsets 3600 1200 50).length →
          (captureScrollOffsets 3600 1200 50).get? i =
            some ((i : Int) * max 1 (1200 - 50))) ∧
        (∀ o ∈ captureScrollOffsets 3600 1200 50, 0 ≤ o ∧ o < 3600) ∧
        (∀ k : Nat, (k : Int) * max 1 (1200 - 50) < 3600 →
          k < (captureScrollOffsets 3600 1200 50).length) ∧
        (∀ y : Int, 0 ≤ y → y < 3600 →
          ∃ o ∈ captureScrollOffsets 3600 1200 50,
            o ≤ y ∧ y < o + clipHeight 3600 1200 o)) :=
  ⟨by decide, by decide, by decide, by decide,
    planning_completeness 3600 1200 50 (by decide) (by decide) (by decide) (by decide)⟩

/-! ## Per-segment failure behaviour -/

/-- A screenshot oracle that fails only at scroll offset 1150 (the second
planned offset of Scenario A) and succeeds everywhere else. -/
def failingShot : Int → Option Int :=
  fun o => if o = 1150 then none else some o

/-- A per-link screenshot oracle that succeeds only on link `0`. -/
def linkShot : Nat → Option Int :=
  fun n => if n = 0 then some 0 else none

/-- If the (fallible) screenshot operation fails at any offset the loop will
visit, the whole capture call returns the error: there is no per-segment
recovery in `captureScrollingScreenshots`. -/
theorem captureSegmentsAux_abort (shoot : Int → Option α) (pageHeight step : Int) :
    ∀ (fuel : Nat) (cur : Int),
      (∃ o ∈ scrollOffsetsAux pageHeight step fuel cur, shoot o = none) →
      captureSegmentsAux shoot pageHeight step fuel cur = none := by
  intro fuel
  induction fuel with
  | zero =>
    intro cur h
    obtain ⟨o, ho, _⟩ := h
    simp [scrollOffsetsAux] at ho
  | succ fuel ih =>
    intro cur h
    obtain ⟨o, ho, hnone⟩ := h
    by_cases hc : cur < pageHeight
    · simp only [scrollOffsetsAux, if_pos hc, List.mem_cons] at ho
      simp only [captureSegmentsAux, if_pos hc]
      rcases ho with rfl | ho
      · rw [hnone]
      · rw [ih (cur + step) ⟨o, ho, hnone⟩]
        cases hshoot : shoot cur <;> rfl
    · rw [scrollOffsetsAux, if_neg hc] at ho
      simp at ho

/-- **C4 (counterexample).** On the Scenario A plan, a screenshot failure at
the single offset 1150 (one of four planned offsets; the three others would
succeed) makes the whole page capture return the error instead of skipping
that offset and continuing: the claimed per-segment recovery does not exist
in the scrolling capturer. -/
theorem segment_failure_counterexample :
    captureSegments failingShot 3600 1200 50 = none ∧
      (captureScrollOffsets 3600 1200 50).countP (fun o => (failingShot o).isNone) = 1 ∧
      (captureScrollOffsets 3600 1200 50).length = 4 := by
  refine ⟨?_, ?_, ?_⟩ <;> decide

/-- **C5-adjacent recovery, C4 (amended).** In the scrolling segment
capturer a single failing segment aborts the page's capture (the thrown
error propagates — no offset is skipped).  Per-item skip-and-continue
recovery exists instead in the single-file variant's per-link loop: a failed
link screenshot is skipped and the loop continues, the successes are kept in
order, and only if zero link screenshots succeed does the capture fail with
an error. -/
theorem segment_failure_amended {α σ : Type} (shoot : Int → Option α)
    (shootLink : σ → Option α) (pageHeight viewportHeight overlapPx : Int)
    (links linksAllFail : List σ)
    (habort : ∃ o ∈ captureScrollOffsets pageHeight viewportHeight overlapPx,
      shoot o = none)
    (hsome : ∃ l ∈ links, (shootLink l).isSome = true)
    (hfail : ∀ l ∈ linksAllFail, shootLink l = none) :
    captureSegments shoot pageHeight viewportHeight overlapPx = none ∧
      processLinkScreenshots shootLink links = Except.ok (links.filterMap shootLink) ∧
      processLinkScreenshots shootLink linksAllFail =
        Except.error "No screenshots were captured successfully" := by
  refine ⟨captureSegmentsAux_abort shoot pageHeight _ _ _ habort, ?_, ?_⟩
  · obtain ⟨l, hl, hs⟩ := hsome
    obtain ⟨a, ha⟩ := Option.isSome_iff_exists.mp hs
    have hmem : a ∈ links.filterMap shootLink := List.mem_filterMap.mpr ⟨l, hl, ha⟩
    have hne : (links.filterMap shootLink).length ≠ 0 := by
      intro h0
      rw [List.length_eq_zero] at h0
      rw [h0] at hmem
      simp at hmem
    unfold processLinkScreenshots
    simp [hne]
  · have h0 : linksAllFail.filterMap shootLink = [] := by
      rw [List.filterMap_eq_nil_iff]
      exact hfail
    unfold processLinkScreenshots
    simp [h0]

theorem segment_failure_amended_witness :
    (∃ o ∈ captureScrollOffsets 3600 1200 50, failingShot o = none) ∧
      (∃ l ∈ ([0] : List Nat), (linkShot l).isSome = true) ∧
      (∀ l ∈ ([1] : List Nat), linkShot l = none) ∧
      (captureSegments failingShot 3600 1200 50 = none ∧
        processLinkScreenshots linkShot [0] =
          Except.ok (([0] : List Nat).filterMap linkShot) ∧
        processLinkScreenshots linkShot [1] =
          Except.error "No screenshots were captured successfully") :=
  ⟨by decide, by decide, by decide,
    segment_failure_amended failingShot linkShot 3600 1200 50 [0] [1]
      (by decide) (by decide) (by decide)⟩

/-! ## Seam-merge losslessness -/

/-- The loop emits nothing when started at or past the page bottom. -/
theorem scrollOffsetsAux_nil (pageHeight step : Int) (fuel : Nat) (cur : Int)
    (h : pageHeight ≤ cur) : scrollOffsetsAux pageHeight step fuel cur = [] := by
  cases fuel with
  | zero => rfl
  | succ fuel => rw [scrollOffsetsAux, if_neg (by omega)]

/-- Pixel height of a slice taken at a planner offset. -/
theorem sliceSegment_length (original : List α) (viewportHeight o : Int) :
    (sliceSegment original (original.length : Int) viewportHeight o).length =
      min (clipHeight (original.length : Int) viewportHeight o).toNat
        (original.length - o.toNat) := by
  unfold sliceSegment
  rw [List.length_take, List.length_drop]

/-- From index 1 on, `mergeScreenshots`'s loop crops the top `overlap` rows
of every screenshot, succeeding exactly because each is taller than the
overlap (for `overlap = 0` the guard skips the crop, which is the same
result). -/
theorem mergeAux_pos (overlap : Int) (hov0 : 0 ≤ overlap) :
    ∀ (ss : List (List α)) (i : Nat),
      (∀ s ∈ ss, overlap < (s.length : Int)) →
      mergeAux overlap (i + 1) ss = some (ss.map (fun s => s.drop overlap.toNat)) := by
  intro ss
  induction ss with
  | nil => intro i _; rfl
  | cons s rest ih =>
    intro i h
    have hs : overlap < (s.length : Int) := h s (List.mem_cons_self _ _)
    have hcrop : (if 0 < i + 1 ∧ 0 < overlap then cropTop overlap s else some s) =
        some (s.drop overlap.toNat) := by
      by_cases ho : 0 < overlap
      · rw [if_pos ⟨Nat.succ_pos i, ho⟩]
        unfold cropTop
        rw [if_pos (by omega)]
      · rw [if_neg (by tauto)]
        have hz : overlap = 0 := by omega
        subst hz
        simp
    simp only [mergeAux]
    rw [hcrop, ih (i + 1) (fun t ht => h t (List.mem_cons_of_mem _ ht))]
    rfl

/-- Tiling: the cropped tail segments, stacked, are exactly the rows of the
original from `cur + overlapPx` on — provided every offset the loop will
still visit leaves more than `overlapPx` rows below it. -/
theorem merged_tail_join {α : Type} (original : List α)
    (viewportHeight overlapPx : Int)
    (hov0 : 0 ≤ overlapPx) (hov : overlapPx < viewportHeight) :
    ∀ (fuel : Nat) (cur : Int), 0 ≤ cur →
      (original.length : Int) - cur ≤ (fuel : Int) * (viewportHeight - overlapPx) →
      (∀ o ∈ scrollOffsetsAux (original.length : Int) (viewportHeight - overlapPx) fuel cur,
        overlapPx < (original.length : Int) - o) →
      (((scrollOffsetsAux (original.length : Int) (viewportHeight - overlapPx) fuel cur).map
          (fun o => sliceSegment original (original.length : Int) viewportHeight o)).map
        (fun s => s.drop overlapPx.toNat)).flatten =
        original.drop (cur + overlapPx).toNat := by
  intro fuel
  induction fuel with
  | zero =>
    intro cur hcur hfuel hall
    simp only [Nat.cast_zero, zero_mul] at hfuel
    simp only [scrollOffsetsAux, List.map_nil, List.flatten_nil]
    rw [eq_comm]
    apply List.drop_eq_nil_of_le
    omega
  | succ fuel ih =>
    intro cur hcur hfuel hall
    by_cases hc : cur < (original.length : Int)
    · simp only [scrollOffsetsAux, if_pos hc, List.mem_cons] at hall
      simp only [scrollOffsetsAux, if_pos hc, List.map_cons, List.flatten_cons]
      have hallrest : ∀ o ∈ scrollOffsetsAux (original.length : Int)
          (viewportHeight - overlapPx) fuel (cur + (viewportHeight - overlapPx)),
          overlapPx < (original.length : Int) - o :=
        fun o ho => hall o (Or.inr ho)
      have hfuel' : (original.length : Int) - (cur + (viewportHeight - overlapPx)) ≤
          (fuel : Int) * (viewportHeight - overlapPx) := by
        have hp := fuel_step_peel fuel (viewportHeight - overlapPx)
          ((original.length : Int) - cur) hfuel
        linarith
      rw [ih (cur + (viewportHeight - overlapPx)) (by omega) hfuel' hallrest]
      unfold sliceSegment
      rw [List.drop_take, List.drop_drop]
      have h1 : cur.toNat + overlapPx.toNat = (cur + overlapPx).toNat := by omega
      rw [h1]
      by_cases hlast : cur + (viewportHeight - overlapPx) < (original.length : Int)
      · have hmem1 : cur + (viewportHeight - overlapPx) ∈
            scrollOffsetsAux (original.length : Int) (viewportHeight - overlapPx) fuel
              (cur + (viewportHeight - overlapPx)) := by
          cases fuel with
          | zero =>
            exfalso
            simp only [Nat.cast_zero, zero_mul] at hfuel'
            omega
          | succ fuel' =>
            rw [scrollOffsetsAux, if_pos hlast]
            exact List.mem_cons_self _ _
        have hroom : viewportHeight < (original.length : Int) - cur := by
          have := hallrest _ hmem1
          omega
        have hclip : clipHeight (original.length : Int) viewportHeight cur =
            viewportHeight := by
          unfold clipHeight
          omega
        rw [hclip]
        have h2 : (cur + (viewportHeight - overlapPx) + overlapPx).toNat =
            (cur + overlapPx).toNat + (viewportHeight.toNat - overlapPx.toNat) := by
          omega
        rw [h2, ← List.drop_drop]
        exact List.take_append_drop _ _
      · have hclip : clipHeight (original.length : Int) viewportHeight cur =
            (original.length : Int) - cur := by
          unfold clipHeight
          omega
        rw [hclip]
        rw [List.drop_eq_nil_of_le (by omega :
          original.length ≤ (cur + (viewportHeight - overlapPx) + overlapPx).toNat)]
        rw [List.append_nil]
        apply List.take_of_length_le
        rw [List.length_drop]
        omega
    · simp only [scrollOffsetsAux, if_neg hc, List.map_nil, List.flatten_nil]
      rw [eq_comm]
      apply List.drop_eq_nil_of_le
      omega

/-- **C3 (counterexample).** For the 5-row image `[0,1,2,3,4]` with
`viewportHeight = 4`, `overlapPx = 2` (a valid plan: `0 ≤ 2 < 4`), the plan
is `[0, 2, 4]` and the last slice has only 1 row, so the merge step's
`extract` is asked for height `1 - 2 < 0` and throws: the merger yields an
error, not images reconstructing the original. -/
theorem merge_lossless_counterexample :
    (0 : Int) ≤ 2 ∧ (2 : Int) < 4 ∧
      captureScrollOffsets (([0, 1, 2, 3, 4] : List Nat).length : Int) 4 2 = [0, 2, 4] ∧
      mergeScreenshots (planSlices ([0, 1, 2, 3, 4] : List Nat) 4 2) 2 = none := by
  refine ⟨by decide, by decide, by decide, by decide⟩

/-- **C3 (amended).** Merge losslessness holds provided additionally every
planned segment after the first is strictly taller than `overlapPx` (i.e.
`pageHeight - offset > overlapPx` for every positive planned offset): then
the merger succeeds — segment 0 kept whole, later segments cropped by
`overlapPx` (identity when `overlapPx = 0` or with at most one segment) —
and the outputs, stacked, reconstruct the original image row for row.
Without that proviso the crop can be asked for a non-positive height and the
merge throws (see the counterexample). -/
theorem merge_lossless_amended {α : Type} (original : List α)
    (viewportHeight overlapPx : Int)
    (hov0 : 0 ≤ overlapPx) (hov : overlapPx < viewportHeight)
    (htall : ∀ o ∈ captureScrollOffsets (original.length : Int) viewportHeight overlapPx,
      0 < o → overlapPx < (original.length : Int) - o) :
    ∃ merged,
      mergeScreenshots (planSlices original viewportHeight overlapPx) overlapPx =
          some merged ∧
        merged.flatten = original := by
  have hstep : 0 < viewportHeight - overlapPx := by omega
  have hfuel := fuel_sufficient (original.length : Int) (viewportHeight - overlapPx)
    (Int.natCast_nonneg _) hstep
  by_cases hone : (planSlices original viewportHeight overlapPx).length ≤ 1
  · refine ⟨planSlices original viewportHeight overlapPx, ?_, ?_⟩
    · unfold mergeScreenshots
      rw [if_pos hone]
    · by_cases hz : original.length = 0
      · have hzl : original = [] := List.length_eq_zero.mp hz
        subst hzl
        have hnil : captureScrollOffsets (0 : Int) viewportHeight overlapPx = [] := by
          unfold captureScrollOffsets
          exact scrollOffsetsAux_nil _ _ _ _ (by omega)
        simp [planSlices, hnil]
      · have hpos : 0 < (original.length : Int) := by omega
        simp only [planSlices, List.length_map] at hone
        have hple : (original.length : Int) ≤ viewportHeight - overlapPx := by
          by_contra hcon
          push_neg at hcon
          have h2 := scrollOffsetsAux_count (original.length : Int)
            (viewportHeight - overlapPx) hstep _ 0 hfuel 1 (by push_cast; omega)
          have h2' : 1 < (captureScrollOffsets (original.length : Int) viewportHeight
              overlapPx).length := h2
          omega
        have hoffs : captureScrollOffsets (original.length : Int) viewportHeight
            overlapPx = [0] := by
          unfold captureScrollOffsets
          rw [scrollOffsetsAux, if_pos hpos,
            scrollOffsetsAux_nil _ _ _ _ (by omega)]
        simp only [planSlices, hoffs, List.map_cons, List.map_nil, List.flatten_cons,
          List.flatten_nil, List.append_nil]
        unfold sliceSegment clipHeight
        simp only [Int.toNat_zero, List.drop_zero, sub_zero]
        apply List.take_of_length_le
        omega
  · push_neg at hone
    simp only [planSlices, List.length_map] at hone
    have hpos : 0 < (original.length : Int) := by
      by_contra hcon
      push_neg at hcon
      have hnil : captureScrollOffsets (original.length : Int) viewportHeight
          overlapPx = [] := by
        unfold captureScrollOffsets
        exact scrollOffsetsAux_nil _ _ _ _ (by omega)
      rw [hnil] at hone
      simp at hone
    have hget := scrollOffsetsAux_get (original.length : Int)
      (viewportHeight - overlapPx)
      ((((original.length : Int)) / (viewportHeight - overlapPx)).toNat + 1) 0 1 hone
    have hget' : (captureScrollOffsets (original.length : Int) viewportHeight
        overlapPx).get? 1 = some (viewportHeight - overlapPx) := by
      unfold captureScrollOffsets
      rw [hget]
      norm_num
    have hstep_mem := List.get?_mem hget'
    have hroom : viewportHeight < (original.length : Int) := by
      have := htall _ hstep_mem hstep
      omega
    have hoffs_cons : captureScrollOffsets (original.length : Int) viewportHeight
        overlapPx =
        0 :: scrollOffsetsAux (original.length : Int) (viewportHeight - overlapPx)
          (((original.length : Int) / (viewportHeight - overlapPx)).toNat)
          (0 + (viewportHeight - overlapPx)) := by
      unfold captureScrollOffsets
      rw [scrollOffsetsAux, if_pos hpos]
    have hfuel' : (original.length : Int) - (0 + (viewportHeight - overlapPx)) ≤
        ((((original.length : Int) / (viewportHeight - overlapPx)).toNat : Nat) : Int) *
          (viewportHeight - overlapPx) := by
      have hp := fuel_step_peel (((original.length : Int) /
        (viewportHeight - overlapPx)).toNat) (viewportHeight - overlapPx)
        ((original.length : Int) - 0) hfuel
      linarith
    have hallrest : ∀ o ∈ scrollOffsetsAux (original.length : Int)
        (viewportHeight - overlapPx)
        (((original.length : Int) / (viewportHeight - overlapPx)).toNat)
        (0 + (viewportHeight - overlapPx)),
        overlapPx < (original.length : Int) - o := by
      intro o ho
      have hmem := scrollOffsetsAux_mem (original.length : Int)
        (viewportHeight - overlapPx) (le_of_lt hstep) _ _ o ho
      refine htall o ?_ (by omega)
      rw [hoffs_cons]
      exact List.mem_cons_of_mem _ ho
    have htails : ∀ s ∈ (scrollOffsetsAux (original.length : Int)
        (viewportHeight - overlapPx)
        (((original.length : Int) / (viewportHeight - overlapPx)).toNat)
        (0 + (viewportHeight - overlapPx))).map
          (fun o => sliceSegment original (original.length : Int) viewportHeight o),
        overlapPx < (s.length : Int) := by
      intro s hs
      obtain ⟨o, ho, rfl⟩ := List.mem_map.mp hs
      have hmem := scrollOffsetsAux_mem (original.length : Int)
        (viewportHeight - overlapPx) (le_of_lt hstep) _ _ o ho
      have hto := hallrest o ho
      rw [sliceSegment_length]
      unfold clipHeight
      omega
    refine ⟨sliceSegment original (original.length : Int) viewportHeight 0 ::
      ((scrollOffsetsAux (original.length : Int) (viewportHeight - overlapPx)
        (((original.length : Int) / (viewportHeight - overlapPx)).toNat)
        (0 + (viewportHeight - overlapPx))).map
          (fun o => sliceSegment original (original.length : Int) viewportHeight o)).map
        (fun s => s.drop overlapPx.toNat), ?_, ?_⟩
    · unfold mergeScreenshots
      rw [if_neg (by simp only [planSlices, List.length_map]; omega)]
      simp only [planSlices, hoffs_cons, List.map_cons]
      simp only [mergeAux]
      rw [if_neg (by omega), mergeAux_pos overlapPx hov0 _ 0 htails]
    · simp only [List.flatten_cons]
      rw [merged_tail_join original viewportHeight overlapPx hov0 hov _ _
        (by omega) hfuel' hallrest]
      unfold sliceSegment
      have hclip : clipHeight (original.length : Int) viewportHeight 0 =
          viewportHeight := by
        unfold clipHeight
        omega
      rw [hclip]
      have h3 : (0 + (viewportHeight - overlapPx) + overlapPx).toNat =
          viewportHeight.toNat := by omega
      rw [h3]
      simp only [Int.toNat_zero, List.drop_zero]
      exact List.take_append_drop _ _

theorem merge_lossless_amended_witness :
    (0 : Int) ≤ 2 ∧ (2 : Int) < 5 ∧
      (∀ o ∈ captureScrollOffsets ((List.range 12).length : Int) 5 2,
        0 < o → 2 < ((List.range 12).length : Int) - o) ∧
      ∃ merged,
        mergeScreenshots (planSlices (List.range 12) 5 2) 2 = some merged ∧
          merged.flatten = List.range 12 :=
  ⟨by decide, by decide, by decide,
    merge_lossless_amended (List.range 12) 5 2 (by decide) (by decide) (by decide)⟩
